import Mathlib

/-!
Verification of the quota-aware model dispatcher of the PathAI ai-service
(`app/core/rate_limiter.py`, `app/core/gemini.py`, and the generator
services), shallowly embedded in Lean 4.

Timestamps are modelled as integers (the Python code uses `time.time()`
floats; every property at stake is about comparisons and windows, which
are insensitive to this choice).  Stateful Python methods are embedded as
functions returning the result together with the updated state.
-/

namespace PathAI

/-- Per-model quota ledger, embedding class `ModelQuota` of
`rate_limiter.py`: static limits plus the three usage-tracking lists
(`minute_requests`, `minute_tokens`, `day_requests`). -/
@[ext]
structure ModelQuota where
  modelName : String
  rpmLimit : Int
  tpmLimit : Int
  rpdLimit : Int
  minuteRequests : List Int
  minuteTokens : List (Int × Int)
  dayRequests : List Int
deriving DecidableEq

/-- Embeds `ModelQuota._cleanup_old_records`: drop minute entries at or
before `now - 60` and day entries at or before `now - 86400`. -/
def cleanupOldRecords (q : ModelQuota) (now : Int) : ModelQuota :=
  let minuteAgo := now - 60
  let dayAgo := now - 86400
  { q with
    minuteRequests := q.minuteRequests.filter (fun t => minuteAgo < t),
    minuteTokens := q.minuteTokens.filter (fun p => minuteAgo < p.1),
    dayRequests := q.dayRequests.filter (fun t => dayAgo < t) }

/-- Embeds `ModelQuota._current_minute_tokens`: sum of the token counts
in `minute_tokens`. -/
def currentMinuteTokens (q : ModelQuota) : Int :=
  (q.minuteTokens.map Prod.snd).sum

/-- Embeds `ModelQuota.can_serve` with its state effect: prune, then
check the three limits; returns the boolean together with the pruned
ledger (the Python method mutates `self` by pruning). -/
def canServeS (q : ModelQuota) (now est : Int) : Bool × ModelQuota :=
  let q2 := cleanupOldRecords q now
  let rpmOk : Bool := (q2.minuteRequests.length : Int) < q2.rpmLimit
  let tpmOk : Bool := currentMinuteTokens q2 + est ≤ q2.tpmLimit
  let rpdOk : Bool := (q2.dayRequests.length : Int) < q2.rpdLimit
  (rpmOk && tpmOk && rpdOk, q2)

/-- The boolean returned by `can_serve`. -/
def canServe (q : ModelQuota) (now est : Int) : Bool :=
  (canServeS q now est).1

/-- Embeds `ModelQuota.record_request`: append `now` to
`minute_requests` and `day_requests`; append `(now, tokens_used)` to
`minute_tokens` only when `tokens_used > 0`.  Note the source performs
no pruning here. -/
def recordRequest (q : ModelQuota) (now tokensUsed : Int) : ModelQuota :=
  let q1 := { q with
    minuteRequests := q.minuteRequests ++ [now],
    dayRequests := q.dayRequests ++ [now] }
  if 0 < tokensUsed then
    { q1 with minuteTokens := q1.minuteTokens ++ [(now, tokensUsed)] }
  else q1

/-- The snapshot returned by `ModelQuota.get_status`, with the
`"used/limit"` strings of the source decomposed into their numeric
parts. -/
structure QuotaStatus where
  model : String
  rpmUsed : Nat
  rpmLimit : Int
  tpmUsed : Int
  tpmLimit : Int
  rpdUsed : Nat
  rpdLimit : Int
  available : Bool
deriving DecidableEq

/-- Embeds `ModelQuota.get_status` with its state effect: prune, read
the counts, and obtain `available` from `can_serve()` (which uses its
default `estimated_tokens = 4000` and prunes again). -/
def getStatusS (q : ModelQuota) (now : Int) : QuotaStatus × ModelQuota :=
  let q2 := cleanupOldRecords q now
  let availAnd := canServeS q2 now 4000
  ({ model := q2.modelName,
     rpmUsed := q2.minuteRequests.length,
     rpmLimit := q2.rpmLimit,
     tpmUsed := currentMinuteTokens q2,
     tpmLimit := q2.tpmLimit,
     rpdUsed := q2.dayRequests.length,
     rpdLimit := q2.rpdLimit,
     available := availAnd.1 }, availAnd.2)

/-- The registry of ledgers built in `GeminiRateLimiter.__init__`: one
`ModelQuota` per configured model.  The key set and the priority order
(`flash`, then `flash-lite`, then `pro`) are fixed at construction and
never change, so the registry is embedded as a record with one field
per model. -/
structure GeminiRateLimiter where
  flash : ModelQuota
  flashLite : ModelQuota
  pro : ModelQuota
deriving DecidableEq

/-- A fresh ledger as built by `ModelQuota.__init__`. -/
def initQuota (name : String) (rpm tpm rpd : Int) : ModelQuota :=
  { modelName := name, rpmLimit := rpm, tpmLimit := tpm, rpdLimit := rpd,
    minuteRequests := [], minuteTokens := [], dayRequests := [] }

/-- The registry as configured in `GeminiRateLimiter.__init__`. -/
def initLimiter : GeminiRateLimiter :=
  { flash := initQuota "gemini-2.5-flash" 15 1000000 1500,
    flashLite := initQuota "gemini-2.5-flash-lite" 15 1000000 1500,
    pro := initQuota "gemini-2.5-pro" 2 32000 50 }

/-- The key set of `self.models` (also the members of
`self.priority_order`, in priority order). -/
def modelKeys : List String :=
  ["gemini-2.5-flash", "gemini-2.5-flash-lite", "gemini-2.5-pro"]

/-- Embeds `GeminiRateLimiter.select_model` with its state effect:
walk `priority_order` and return the first model whose `can_serve`
answers true, threading the pruning that `can_serve` performs. -/
def selectModelS (rl : GeminiRateLimiter) (now est : Int) :
    Option String × GeminiRateLimiter :=
  let c1 := canServeS rl.flash now est
  let rl1 := { rl with flash := c1.2 }
  if c1.1 then (some "gemini-2.5-flash", rl1)
  else
    let c2 := canServeS rl1.flashLite now est
    let rl2 := { rl1 with flashLite := c2.2 }
    if c2.1 then (some "gemini-2.5-flash-lite", rl2)
    else
      let c3 := canServeS rl2.pro now est
      let rl3 := { rl2 with pro := c3.2 }
      if c3.1 then (some "gemini-2.5-pro", rl3)
      else (none, rl3)

/-- The model name returned by `select_model`. -/
def selectModel (rl : GeminiRateLimiter) (now est : Int) : Option String :=
  (selectModelS rl now est).1

/-- Embeds `GeminiRateLimiter.record_usage`: record against the named
ledger if the name is a key of `self.models`, otherwise do nothing. -/
def recordUsage (rl : GeminiRateLimiter) (name : String) (now tokensUsed : Int) :
    GeminiRateLimiter :=
  if name = "gemini-2.5-flash" then
    { rl with flash := recordRequest rl.flash now tokensUsed }
  else if name = "gemini-2.5-flash-lite" then
    { rl with flashLite := recordRequest rl.flashLite now tokensUsed }
  else if name = "gemini-2.5-pro" then
    { rl with pro := recordRequest rl.pro now tokensUsed }
  else rl

/-- The polling loop of `GeminiRateLimiter.wait_for_quota`: iteration
`i` sleeps one second (so it runs at time `t0 + i + 1`) and then walks
`priority_order`, returning the first model whose `can_serve()` —
with its default `estimated_tokens = 4000` — answers true.  `fuel` is
the number of iterations left. -/
def waitLoopS (t0 : Int) : GeminiRateLimiter → Nat → Nat →
    Option String × GeminiRateLimiter
  | rl, _, 0 => (none, rl)
  | rl, i, fuel + 1 =>
    let now := t0 + (i : Int) + 1
    let c1 := canServeS rl.flash now 4000
    let rl1 := { rl with flash := c1.2 }
    if c1.1 then (some "gemini-2.5-flash", rl1)
    else
      let c2 := canServeS rl1.flashLite now 4000
      let rl2 := { rl1 with flashLite := c2.2 }
      if c2.1 then (some "gemini-2.5-flash-lite", rl2)
      else
        let c3 := canServeS rl2.pro now 4000
        let rl3 := { rl2 with pro := c3.2 }
        if c3.1 then (some "gemini-2.5-pro", rl3)
        else waitLoopS t0 rl3 (i + 1) fuel

/-- Embeds `GeminiRateLimiter.wait_for_quota` with its state effect:
up to `maxWait` one-second ticks starting from time `t0`. -/
def waitForQuotaS (rl : GeminiRateLimiter) (t0 : Int) (maxWait : Nat) :
    Option String × GeminiRateLimiter :=
  waitLoopS t0 rl 0 maxWait

/-- The model name returned by `wait_for_quota`. -/
def waitForQuota (rl : GeminiRateLimiter) (t0 : Int) (maxWait : Nat) :
    Option String :=
  (waitForQuotaS rl t0 maxWait).1

/-- Filtering with a weaker predicate first does not change the result
of filtering with a stronger one. -/
theorem filter_filter_imp {α : Type} {p q : α → Bool}
    (h : ∀ a, q a = true → p a = true) (l : List α) :
    (l.filter p).filter q = l.filter q := by
  induction l with
  | nil => rfl
  | cons a l ih =>
    by_cases hp : p a = true
    · by_cases hq : q a = true <;> simp [List.filter_cons, hp, hq, ih]
    · have hq : q a = false := by
        cases hqa : q a
        · rfl
        · exact absurd (h a hqa) hp
      simp [List.filter_cons, hp, hq, ih]

/-- Pruning at an earlier time and then at a later time is the same as
pruning once at the later time. -/
theorem cleanup_compose (q : ModelQuota) {t tt : Int} (h : t ≤ tt) :
    cleanupOldRecords (cleanupOldRecords q t) tt = cleanupOldRecords q tt := by
  apply ModelQuota.ext
  · rfl
  · rfl
  · rfl
  · rfl
  · show ((q.minuteRequests.filter fun a => decide (t - 60 < a)).filter
        fun a => decide (tt - 60 < a)) = q.minuteRequests.filter fun a => decide (tt - 60 < a)
    exact filter_filter_imp (fun a ha => by simp at ha ⊢; omega) _
  · show ((q.minuteTokens.filter fun p => decide (t - 60 < p.1)).filter
        fun p => decide (tt - 60 < p.1)) = q.minuteTokens.filter fun p => decide (tt - 60 < p.1)
    exact filter_filter_imp (fun a ha => by simp at ha ⊢; omega) _
  · show ((q.dayRequests.filter fun a => decide (t - 86400 < a)).filter
        fun a => decide (tt - 86400 < a)) = q.dayRequests.filter fun a => decide (tt - 86400 < a)
    exact filter_filter_imp (fun a ha => by simp at ha ⊢; omega) _

/-- Pruning is idempotent. -/
theorem cleanup_idem (q : ModelQuota) (t : Int) :
    cleanupOldRecords (cleanupOldRecords q t) t = cleanupOldRecords q t :=
  cleanup_compose q le_rfl

/-- `can_serve` is insensitive to an earlier pruning: it prunes first
itself. -/
theorem canServe_cleanup (q : ModelQuota) {t tt : Int} (est : Int) (h : t ≤ tt) :
    canServe (cleanupOldRecords q t) tt est = canServe q tt est := by
  simp only [canServe, canServeS, cleanup_compose q h]

/-- CLAIM C1: `can_serve(estimated_tokens)` first prunes expired
entries (the returned state is exactly the pruned ledger) and then
returns true if and only if the pruned request count is below `rpm`,
the pruned token sum plus `estimated_tokens` is at most `tpm`, and the
pruned day count is below `rpd`. -/
theorem canServe_prunes_then_checks (q : ModelQuota) (now est : Int) :
    (canServeS q now est).2 = cleanupOldRecords q now ∧
    (canServe q now est = true ↔
      (((q.minuteRequests.filter (fun t => now - 60 < t)).length : Int) < q.rpmLimit ∧
       ((q.minuteTokens.filter (fun p => now - 60 < p.1)).map Prod.snd).sum + est ≤ q.tpmLimit ∧
       ((q.dayRequests.filter (fun t => now - 86400 < t)).length : Int) < q.rpdLimit)) := by
  constructor
  · rfl
  · simp [canServe, canServeS, cleanupOldRecords, currentMinuteTokens,
      Bool.and_eq_true, decide_eq_true_eq, and_assoc]

/-- All three ledgers pruned at time `t`. -/
def cleanAll (rl : GeminiRateLimiter) (t : Int) : GeminiRateLimiter :=
  { flash := cleanupOldRecords rl.flash t,
    flashLite := cleanupOldRecords rl.flashLite t,
    pro := cleanupOldRecords rl.pro t }

/-- Registry-level version of `cleanup_compose`. -/
theorem cleanAll_compose (rl : GeminiRateLimiter) {t tt : Int} (h : t ≤ tt) :
    cleanAll (cleanAll rl t) tt = cleanAll rl tt := by
  simp [cleanAll, cleanup_compose _ h]

/-- `select_model` answers the same after an earlier pruning of all
ledgers: each `can_serve` prunes again itself. -/
theorem selectModelS_fst_cleanAll (rl : GeminiRateLimiter) {t tt : Int} (est : Int)
    (h : t ≤ tt) :
    (selectModelS (cleanAll rl t) tt est).1 = (selectModelS rl tt est).1 := by
  have h1 := canServe_cleanup rl.flash est h
  have h2 := canServe_cleanup rl.flashLite est h
  have h3 := canServe_cleanup rl.pro est h
  simp only [canServe] at h1 h2 h3
  simp only [selectModelS, cleanAll, apply_ite (f := Prod.fst)]
  rw [h1, h2, h3]

/-- When `select_model` returns no model it has checked, and hence
pruned, every ledger. -/
theorem selectModelS_none_snd (rl : GeminiRateLimiter) (now est : Int)
    {st : GeminiRateLimiter} (h : selectModelS rl now est = (none, st)) :
    st = cleanAll rl now := by
  simp only [selectModelS] at h
  split_ifs at h with h1 h2 h3 <;> simp_all
  exact h.symm

/-- One tick of the `wait_for_quota` loop is exactly `select_model`
with the default estimate of 4000 tokens. -/
theorem waitLoopS_succ (t0 : Int) (rl : GeminiRateLimiter) (i fuel : Nat) :
    waitLoopS t0 rl i (fuel + 1) =
      match selectModelS rl (t0 + (i : Int) + 1) 4000 with
      | (some m, st) => (some m, st)
      | (none, st) => waitLoopS t0 st (i + 1) fuel := by
  by_cases h1 : (canServeS rl.flash (t0 + (i : Int) + 1) 4000).1 = true <;>
    by_cases h2 : (canServeS rl.flashLite (t0 + (i : Int) + 1) 4000).1 = true <;>
      by_cases h3 : (canServeS rl.pro (t0 + (i : Int) + 1) 4000).1 = true <;>
        simp [waitLoopS, selectModelS, h1, h2, h3]

/-- The polling loop's answer is unaffected by a pruning performed
before it started. -/
theorem waitLoopS_fst_cleanAll (t0 : Int) (fuel i : Nat) (rl : GeminiRateLimiter)
    {t : Int} (h : t ≤ t0 + (i : Int) + 1) :
    (waitLoopS t0 (cleanAll rl t) i fuel).1 = (waitLoopS t0 rl i fuel).1 := by
  cases fuel with
  | zero => rfl
  | succ fuel =>
    rw [waitLoopS_succ, waitLoopS_succ]
    have hfst := selectModelS_fst_cleanAll rl 4000 h
    rcases hA : selectModelS (cleanAll rl t) (t0 + (i : Int) + 1) 4000 with ⟨resA, stA⟩
    rcases hB : selectModelS rl (t0 + (i : Int) + 1) 4000 with ⟨resB, stB⟩
    rw [hA, hB] at hfst
    simp only at hfst
    subst hfst
    cases resA with
    | some m => simp
    | none =>
      have eA : stA = cleanAll (cleanAll rl t) (t0 + (i : Int) + 1) :=
        selectModelS_none_snd _ _ _ hA
      have eB : stB = cleanAll rl (t0 + (i : Int) + 1) :=
        selectModelS_none_snd _ _ _ hB
      rw [eA, eB, cleanAll_compose rl h]

/-- The polling loop returns the first `some` among the per-tick
`select_model` answers over the original registry state. -/
theorem waitLoopS_fst_findSome (t0 : Int) :
    ∀ (fuel i : Nat) (rl : GeminiRateLimiter),
    (waitLoopS t0 rl i fuel).1 =
      (List.range' i fuel).findSome?
        (fun (j : Nat) => selectModel rl (t0 + (j : Int) + 1) 4000)
  | 0, _, _ => rfl
  | fuel + 1, i, rl => by
    rw [waitLoopS_succ, List.range'_succ i fuel 1, List.findSome?_cons]
    rcases hB : selectModelS rl (t0 + (i : Int) + 1) 4000 with ⟨resB, stB⟩
    have hsel : selectModel rl (t0 + (i : Int) + 1) 4000 = resB := by
      simp [selectModel, hB]
    rw [hsel]
    cases resB with
    | some m => simp
    | none =>
      have eB : stB = cleanAll rl (t0 + (i : Int) + 1) :=
        selectModelS_none_snd _ _ _ hB
      subst eB
      simp only
      rw [waitLoopS_fst_cleanAll t0 fuel (i + 1) rl (by push_cast; omega)]
      exact waitLoopS_fst_findSome t0 fuel (i + 1) rl

/-- A registry in which every model has a TPM limit below the default
estimate of 4000 but plenty of RPM/RPD headroom and no recorded usage. -/
def lowTpmLimiter : GeminiRateLimiter :=
  { flash := initQuota "gemini-2.5-flash" 15 100 1500,
    flashLite := initQuota "gemini-2.5-flash-lite" 15 100 1500,
    pro := initQuota "gemini-2.5-pro" 2 100 50 }

/-- CLAIM C2, counterexample to the claim as stated: the polling tick
of `wait_for_quota` does not re-run selection with a token estimate of
0.  With every TPM limit below 4000 and otherwise-empty ledgers,
`select_model(0)` would immediately return the flash model, yet
`wait_for_quota` times out, because each tick calls `can_serve()` with
its default estimate of 4000. -/
theorem waitForQuota_zero_estimate_counterexample :
    waitForQuota lowTpmLimiter 0 5 = none ∧
    selectModel lowTpmLimiter 1 0 = some "gemini-2.5-flash" := by
  constructor <;> rfl

/-- CLAIM C2 (amended): on every tick of its polling loop,
`wait_for_quota` re-evaluates model eligibility with the default token
estimate of 4000 — i.e. it re-runs `select_model(4000)` at each tick —
and returns the answer of the first tick (within `max_wait` ticks) on
which some model is eligible, `none` if no tick within the bound finds
one. -/
theorem waitForQuota_polls_with_default_estimate (rl : GeminiRateLimiter)
    (t0 : Int) (maxWait : Nat) :
    waitForQuota rl t0 maxWait =
      (List.range maxWait).findSome?
        (fun (i : Nat) => selectModel rl (t0 + (i : Int) + 1) 4000) := by
  rw [List.range_eq_range']
  exact waitLoopS_fst_findSome t0 maxWait 0 rl

/-- A single ledger with a TPM limit below the default estimate of
4000 and no recorded usage. -/
def lowTpmQuota : ModelQuota := initQuota "gemini-2.5-flash" 15 100 1500

/-- CLAIM C3, counterexample to the claim as stated: the `available`
boolean of `get_status` is not `can_serve(0)` after pruning — on a
ledger whose TPM limit is below 4000 with no usage at all,
`can_serve(0)` is true yet `available` is false, because `get_status`
calls `can_serve()` with its default estimate of 4000. -/
theorem getStatus_available_zero_counterexample :
    (getStatusS lowTpmQuota 0).1.available = false ∧
    canServe (cleanupOldRecords lowTpmQuota 0) 0 0 = true := by
  constructor <;> rfl

/-- CLAIM C3 (amended): for every ledger state, the `available`
boolean returned by `get_status` equals `can_serve` evaluated with the
default estimate of 4000 (equivalently, `can_serve(4000)` after
pruning, since `can_serve` prunes first itself). -/
theorem getStatus_available_eq_canServe_default (q : ModelQuota) (now : Int) :
    (getStatusS q now).1.available = canServe q now 4000 := by
  show canServe (cleanupOldRecords q now) now 4000 = canServe q now 4000
  exact canServe_cleanup q 4000 le_rfl

/-- CLAIM C4: `select_model` walks the priority list
(flash, flash-lite, pro) in its fixed order and returns the first
model whose ledger's `can_serve(estimated_tokens)` is true; it returns
`none` if and only if every model in the priority list fails
`can_serve`. -/
theorem selectModel_first_fit (rl : GeminiRateLimiter) (now est : Int) :
    (selectModel rl now est = none ↔
      (canServe rl.flash now est = false ∧ canServe rl.flashLite now est = false ∧
       canServe rl.pro now est = false)) ∧
    (canServe rl.flash now est = true →
      selectModel rl now est = some "gemini-2.5-flash") ∧
    (canServe rl.flash now est = false → canServe rl.flashLite now est = true →
      selectModel rl now est = some "gemini-2.5-flash-lite") ∧
    (canServe rl.flash now est = false → canServe rl.flashLite now est = false →
      canServe rl.pro now est = true →
      selectModel rl now est = some "gemini-2.5-pro") := by
  simp only [selectModel, selectModelS, canServe, apply_ite (f := Prod.fst)]
  by_cases h1 : (canServeS rl.flash now est).1 = true <;>
    by_cases h2 : (canServeS rl.flashLite now est).1 = true <;>
      by_cases h3 : (canServeS rl.pro now est).1 = true <;>
        simp [h1, h2, h3]

/-- Witness for C4 at a concrete input: on the freshly-constructed
registry the flash model can serve, so it is selected. -/
theorem selectModel_first_fit_witness :
    selectModel initLimiter 0 4000 = some "gemini-2.5-flash" :=
  (selectModel_first_fit initLimiter 0 4000).2.1 (by decide)

/-- A ledger holding one entry per series recorded at time 0, read at
time 1000 — far outside the 60-second minute window. -/
def staleQuota : ModelQuota :=
  { modelName := "gemini-2.5-flash", rpmLimit := 15, tpmLimit := 1000000,
    rpdLimit := 1500, minuteRequests := [0], minuteTokens := [(0, 10)],
    dayRequests := [0] }

/-- CLAIM C8, counterexample to the claim as stated: pruning does not
precede `record_request`.  Recording at time 1000 on a ledger holding
a minute entry from time 0 keeps the expired entry, whereas
prune-then-record would have dropped it. -/
theorem recordRequest_no_prune_counterexample :
    (recordRequest staleQuota 1000 7).minuteRequests = [0, 1000] ∧
    (recordRequest (cleanupOldRecords staleQuota 1000) 1000 7).minuteRequests
      = [1000] := by
  constructor <;> rfl

/-- A ledger holding one in-window entry per series when read at time
1000. -/
def recentQuota : ModelQuota :=
  { modelName := "gemini-2.5-flash", rpmLimit := 15, tpmLimit := 1000000,
    rpdLimit := 1500, minuteRequests := [950], minuteTokens := [(950, 10)],
    dayRequests := [950] }

/-- CLAIM C8 (amended): pruning precedes every read — `can_serve` and
`get_status` answer the same on a ledger and on its pruned form, and
the ledger state they leave behind holds only in-window entries
(minute entries newer than `now - 60`, day entries newer than
`now - 86400`) — so the ledger never reports usage from outside its
window; `record_request`, however, appends without pruning. -/
theorem prune_before_reads_spec (q : ModelQuota) (now est tokensUsed : Int) :
    (canServe q now est = canServe (cleanupOldRecords q now) now est) ∧
    ((getStatusS q now).1 = (getStatusS (cleanupOldRecords q now) now).1) ∧
    (∀ t ∈ (canServeS q now est).2.minuteRequests, now - 60 < t) ∧
    (∀ p ∈ (canServeS q now est).2.minuteTokens, now - 60 < p.1) ∧
    (∀ t ∈ (canServeS q now est).2.dayRequests, now - 86400 < t) ∧
    ((recordRequest q now tokensUsed).minuteRequests = q.minuteRequests ++ [now] ∧
     (recordRequest q now tokensUsed).dayRequests = q.dayRequests ++ [now]) := by
  refine ⟨(canServe_cleanup q est le_rfl).symm, ?_, ?_, ?_, ?_, ?_, ?_⟩
  · simp only [getStatusS, canServeS, cleanup_idem]
  · intro t ht
    simp only [canServeS, cleanupOldRecords, List.mem_filter,
      decide_eq_true_eq] at ht
    exact ht.2
  · intro p hp
    simp only [canServeS, cleanupOldRecords, List.mem_filter,
      decide_eq_true_eq] at hp
    exact hp.2
  · intro t ht
    simp only [canServeS, cleanupOldRecords, List.mem_filter,
      decide_eq_true_eq] at ht
    exact ht.2
  · by_cases h : 0 < tokensUsed <;> simp [recordRequest, h]
  · by_cases h : 0 < tokensUsed <;> simp [recordRequest, h]

/-- Witness for C8 at concrete inputs: read-insensitivity to stale
entries on `staleQuota`, and the in-window bound applied to the entry
of `recentQuota`. -/
theorem prune_before_reads_witness :
    canServe staleQuota 1000 0 = canServe (cleanupOldRecords staleQuota 1000) 1000 0 ∧
    (1000 : Int) - 60 < 950 :=
  ⟨(prune_before_reads_spec staleQuota 1000 0 0).1,
   (prune_before_reads_spec recentQuota 1000 0 0).2.2.1 950 (by decide)⟩

/-- CLAIM C9: `record_request(tokens_used)` appends the current
timestamp to `minute_requests` and `day_requests`, and appends
`(timestamp, tokens_used)` to `minute_tokens` exactly when
`tokens_used > 0` — a zero-token call consumes an RPM and an RPD slot
but adds nothing to TPM accounting. -/
theorem recordRequest_spec (q : ModelQuota) (now tokensUsed : Int) :
    (recordRequest q now tokensUsed).minuteRequests = q.minuteRequests ++ [now] ∧
    (recordRequest q now tokensUsed).dayRequests = q.dayRequests ++ [now] ∧
    (0 < tokensUsed →
      (recordRequest q now tokensUsed).minuteTokens
        = q.minuteTokens ++ [(now, tokensUsed)]) ∧
    (tokensUsed ≤ 0 →
      (recordRequest q now tokensUsed).minuteTokens = q.minuteTokens) := by
  refine ⟨?_, ?_, ?_, ?_⟩
  · by_cases h : 0 < tokensUsed <;> simp [recordRequest, h]
  · by_cases h : 0 < tokensUsed <;> simp [recordRequest, h]
  · intro h
    simp [recordRequest, h]
  · intro h
    have h2 : ¬ 0 < tokensUsed := by omega
    simp [recordRequest, h2]

/-- Witness for C9 at concrete inputs: a 3-token record appends to
`minute_tokens`, a 0-token record does not. -/
theorem recordRequest_spec_witness :
    (recordRequest (initQuota "gemini-2.5-flash" 15 1000000 1500) 5 3).minuteTokens
      = [(5, 3)] ∧
    (recordRequest (initQuota "gemini-2.5-flash" 15 1000000 1500) 5 0).minuteTokens
      = [] :=
  ⟨(recordRequest_spec (initQuota "gemini-2.5-flash" 15 1000000 1500) 5 3).2.2.1
     (by decide),
   (recordRequest_spec (initQuota "gemini-2.5-flash" 15 1000000 1500) 5 0).2.2.2
     (by decide)⟩

/-- CLAIM C10: `record_usage` with a model name that is not a key of
the registry is a silent no-op — it is a total function (raises
nothing) and returns the registry unchanged, so every ledger's
`minute_requests`, `minute_tokens` and `day_requests` are untouched. -/
theorem recordUsage_unknown_noop (rl : GeminiRateLimiter) (name : String)
    (now tokensUsed : Int) (h : name ∉ modelKeys) :
    recordUsage rl name now tokensUsed = rl := by
  simp only [modelKeys, List.mem_cons, List.not_mem_nil, or_false] at h
  push_neg at h
  obtain ⟨h1, h2, h3⟩ := h
  simp [recordUsage, h1, h2, h3]

/-- Witness for C10 at a concrete input: recording against a model
name outside the registry leaves the fresh registry unchanged. -/
theorem recordUsage_unknown_noop_witness :
    recordUsage initLimiter "gemini-1.5-flash" 0 0 = initLimiter :=
  recordUsage_unknown_noop initLimiter "gemini-1.5-flash" 0 0 (by decide)

/-- Outcome of one backend generation call inside
`_generate_with_fallback` (`gemini.py`): a response or a raised
exception. -/
inductive GenOutcome (ε α : Type) where
  | success : α → GenOutcome ε α
  | failure : ε → GenOutcome ε α
deriving DecidableEq

/-- Whether the call raised. -/
def GenOutcome.isFailure {ε α : Type} : GenOutcome ε α → Bool
  | .success _ => false
  | .failure _ => true

/-- The loop of `_generate_with_fallback`: try each candidate model in
order; on success return the response; on an exception record it as
`last_exception` and — in both branches of the source's
resource-exhausted test (`is429`) — continue with the next candidate.
Past the end of the list, raise `last_exception` when one was recorded
(error payload `some e`), else the generic `Exception` (payload
`none`). -/
def generateLoop {ε α : Type} (behaviour : String → GenOutcome ε α)
    (is429 : ε → Bool) : List String → Option ε → Except (Option ε) α
  | [], lastException => .error lastException
  | name :: rest, _ =>
    match behaviour name with
    | .success r => .ok r
    | .failure e =>
      if is429 e then generateLoop behaviour is429 rest (some e)
      else generateLoop behaviour is429 rest (some e)

/-- Embeds `_generate_with_fallback`, parametric in the candidate list
(the source iterates the module-level `MODELS`) and in the behaviour
of the backend call. -/
def generateWithFallback {ε α : Type} (behaviour : String → GenOutcome ε α)
    (is429 : ε → Bool) (models : List String) : Except (Option ε) α :=
  generateLoop behaviour is429 models none

/-- The fallback loop's outcome does not depend on how errors are
classified: both branches of the classification continue. -/
theorem generateLoop_is429_independent {ε α : Type}
    (behaviour : String → GenOutcome ε α) (is429 is429' : ε → Bool) :
    ∀ (models : List String) (acc : Option ε),
    generateLoop behaviour is429 models acc
      = generateLoop behaviour is429' models acc
  | [], _ => rfl
  | name :: rest, acc => by
    simp only [generateLoop]
    cases behaviour name with
    | success r => rfl
    | failure e =>
      simp only [ite_self]
      exact generateLoop_is429_independent behaviour is429 is429' rest (some e)

/-- A prefix of failing candidates is skipped, leaving some recorded
last error. -/
theorem generateLoop_skip {ε α : Type} (behaviour : String → GenOutcome ε α)
    (is429 : ε → Bool) :
    ∀ (pre : List String), (∀ n ∈ pre, (behaviour n).isFailure = true) →
    ∀ (rest : List String) (acc : Option ε), ∃ acc2 : Option ε,
      generateLoop behaviour is429 (pre ++ rest) acc
        = generateLoop behaviour is429 rest acc2
  | [], _, rest, acc => ⟨acc, rfl⟩
  | name :: pre, h, rest, acc => by
    have hn : (behaviour name).isFailure = true := h name (by simp)
    cases hb : behaviour name with
    | success r => rw [hb] at hn; simp [GenOutcome.isFailure] at hn
    | failure e =>
      simp only [List.cons_append, generateLoop, hb, ite_self]
      exact generateLoop_skip behaviour is429 pre
        (fun n hm => h n (by simp [hm])) rest (some e)

/-- CLAIM C5: the fallback invoker proceeds to the next candidate on
any error regardless of error class (its outcome is independent of the
error-classification predicate), returns the first successful
candidate's result unchanged with no exception, and when every
candidate fails it raises a failure carrying the last candidate error
observed. -/
theorem generateWithFallback_spec {ε α : Type}
    (behaviour : String → GenOutcome ε α) (is429 is429' : ε → Bool) :
    (∀ models : List String,
      generateWithFallback behaviour is429 models
        = generateWithFallback behaviour is429' models) ∧
    (∀ (pre : List String) (name : String) (post : List String) (r : α),
      (∀ n ∈ pre, (behaviour n).isFailure = true) →
      behaviour name = .success r →
      generateWithFallback behaviour is429 (pre ++ name :: post) = .ok r) ∧
    (∀ (pre : List String) (name : String) (eLast : ε),
      (∀ n ∈ pre, (behaviour n).isFailure = true) →
      behaviour name = .failure eLast →
      generateWithFallback behaviour is429 (pre ++ [name])
        = .error (some eLast)) := by
  refine ⟨fun models =>
    generateLoop_is429_independent behaviour is429 is429' models none, ?_, ?_⟩
  · intro pre name post r hpre hname
    obtain ⟨acc2, hacc⟩ :=
      generateLoop_skip behaviour is429 pre hpre (name :: post) none
    unfold generateWithFallback
    rw [hacc]
    simp [generateLoop, hname]
  · intro pre name eLast hpre hname
    obtain ⟨acc2, hacc⟩ :=
      generateLoop_skip behaviour is429 pre hpre [name] none
    unfold generateWithFallback
    rw [hacc]
    simp [generateLoop, hname, ite_self]

/-- The spec's scenario: variants v1 and v2 raise resource-exhausted
errors, v3 succeeds. -/
def fallbackBehaviourW : String → GenOutcome String String :=
  fun name =>
    if name = "v3" then .success "v3-output" else .failure "RESOURCE_EXHAUSTED"

/-- Witness for C5 at the spec's scenario: the caller receives v3's
output, no exception. -/
theorem generateWithFallback_spec_witness :
    generateWithFallback fallbackBehaviourW (fun _ => true) ["v1", "v2", "v3"]
      = .ok "v3-output" :=
  (generateWithFallback_spec fallbackBehaviourW (fun _ => true) (fun _ => true)).2.1
    ["v1", "v2"] "v3" [] "v3-output" (by decide) (by decide)

/-- The retry skeleton of `QuizGenerator.generate_quiz`: `attemptF i`
is the outcome of the `try` body of iteration `i` (model selection,
invocation, parsing); the loop runs up to `max_retries` attempts,
overwriting `last_error` on each failure, and after exhaustion raises
a failure wrapping `last_error` (`some e`; payload `none` is the
zero-attempt case in which `last_error` is still `None`). -/
def quizRetryLoop {ε α : Type} (attemptF : Nat → Except ε α) :
    Nat → Nat → Option ε → Except (Option ε) α
  | _, 0, lastError => .error lastError
  | i, fuel + 1, _ =>
    match attemptF i with
    | .ok r => .ok r
    | .error e => quizRetryLoop attemptF (i + 1) fuel (some e)

/-- Embeds the retry loop of `generate_quiz` started at attempt 0 with
no recorded error. -/
def generateQuiz {ε α : Type} (attemptF : Nat → Except ε α)
    (maxRetries : Nat) : Except (Option ε) α :=
  quizRetryLoop attemptF 0 maxRetries none

/-- CLAIM C6: with an attempt bound of 3, the retrying pipeline
recovers every attempt failure locally up to the bound (a success at
any attempt below the bound is returned to the caller), and when all
three attempts fail the surfaced failure wraps the error of the third
attempt specifically. -/
theorem generateQuiz_retry_spec {ε α : Type} (attemptF : Nat → Except ε α) :
    (∀ (k : Nat) (r : α), k < 3 → (∀ j < k, ∃ e, attemptF j = .error e) →
      attemptF k = .ok r → generateQuiz attemptF 3 = .ok r) ∧
    (∀ e0 e1 e2 : ε, attemptF 0 = .error e0 → attemptF 1 = .error e1 →
      attemptF 2 = .error e2 → generateQuiz attemptF 3 = .error (some e2)) := by
  constructor
  · intro k r hk hfail hok
    interval_cases k
    · simp [generateQuiz, quizRetryLoop, hok]
    · obtain ⟨e0, h0⟩ := hfail 0 (by omega)
      simp [generateQuiz, quizRetryLoop, h0, hok]
    · obtain ⟨e0, h0⟩ := hfail 0 (by omega)
      obtain ⟨e1, h1⟩ := hfail 1 (by omega)
      simp [generateQuiz, quizRetryLoop, h0, h1, hok]
  · intro e0 e1 e2 h0 h1 h2
    simp [generateQuiz, quizRetryLoop, h0, h1, h2]

/-- Three attempts that all fail, the third with a distinguished
error. -/
def attemptAllFailW : Nat → Except String String :=
  fun i => .error (if i = 2 then "third" else "early")

/-- Witness for C6 at a concrete input: after three failures the
surfaced failure wraps the third attempt's error. -/
theorem generateQuiz_retry_spec_witness :
    generateQuiz attemptAllFailW 3 = .error (some "third") :=
  (generateQuiz_retry_spec attemptAllFailW).2 "early" "early" "third"
    rfl rfl rfl

/-- No entry added: every usage list of `a` is a sublist of the
corresponding list of `b`. -/
def ledgerSub (a b : ModelQuota) : Prop :=
  a.minuteRequests.Sublist b.minuteRequests ∧
  a.minuteTokens.Sublist b.minuteTokens ∧
  a.dayRequests.Sublist b.dayRequests

/-- `ledgerSub` on all three ledgers of the registry. -/
def limiterSub (a b : GeminiRateLimiter) : Prop :=
  ledgerSub a.flash b.flash ∧ ledgerSub a.flashLite b.flashLite ∧
  ledgerSub a.pro b.pro

theorem ledgerSub_refl (a : ModelQuota) : ledgerSub a a :=
  ⟨List.Sublist.refl _, List.Sublist.refl _, List.Sublist.refl _⟩

theorem ledgerSub_trans {a b c : ModelQuota}
    (h1 : ledgerSub a b) (h2 : ledgerSub b c) : ledgerSub a c :=
  ⟨h1.1.trans h2.1, h1.2.1.trans h2.2.1, h1.2.2.trans h2.2.2⟩

theorem limiterSub_trans {a b c : GeminiRateLimiter}
    (h1 : limiterSub a b) (h2 : limiterSub b c) : limiterSub a c :=
  ⟨ledgerSub_trans h1.1 h2.1, ledgerSub_trans h1.2.1 h2.2.1,
   ledgerSub_trans h1.2.2 h2.2.2⟩

theorem limiterSub_refl (a : GeminiRateLimiter) : limiterSub a a :=
  ⟨ledgerSub_refl _, ledgerSub_refl _, ledgerSub_refl _⟩

/-- Pruning only removes entries. -/
theorem cleanup_ledgerSub (q : ModelQuota) (t : Int) :
    ledgerSub (cleanupOldRecords q t) q :=
  ⟨List.filter_sublist _, List.filter_sublist _, List.filter_sublist _⟩

/-- `select_model` only prunes: it adds no entry to any ledger. -/
theorem selectModelS_snd_sub (rl : GeminiRateLimiter) (now est : Int) :
    limiterSub (selectModelS rl now est).2 rl := by
  simp only [selectModelS]
  split_ifs <;>
    refine ⟨⟨?_, ?_, ?_⟩, ⟨?_, ?_, ?_⟩, ⟨?_, ?_, ?_⟩⟩ <;>
      first
        | exact List.filter_sublist _
        | exact List.Sublist.refl _

/-- The `wait_for_quota` loop only prunes: it adds no entry to any
ledger. -/
theorem waitLoopS_snd_sub (t0 : Int) :
    ∀ (fuel i : Nat) (rl : GeminiRateLimiter),
    limiterSub (waitLoopS t0 rl i fuel).2 rl
  | 0, _, rl => limiterSub_refl rl
  | fuel + 1, i, rl => by
    rw [waitLoopS_succ]
    rcases h : selectModelS rl (t0 + (i : Int) + 1) 4000 with ⟨res, st⟩
    have hsub : limiterSub st rl := by
      have h2 := selectModelS_snd_sub rl (t0 + (i : Int) + 1) 4000
      rw [h] at h2
      exact h2
    cases res with
    | some m => simpa using hsub
    | none =>
      simp only
      exact limiterSub_trans (waitLoopS_snd_sub t0 fuel (i + 1) st) hsub

/-- Same usage as seen by any later read at time `T`: pruning both
sides at `T` coincides, ledger by ledger. -/
def limiterEqAt (a b : GeminiRateLimiter) (T : Int) : Prop :=
  cleanupOldRecords a.flash T = cleanupOldRecords b.flash T ∧
  cleanupOldRecords a.flashLite T = cleanupOldRecords b.flashLite T ∧
  cleanupOldRecords a.pro T = cleanupOldRecords b.pro T

theorem limiterEqAt_trans {a b c : GeminiRateLimiter} {T : Int}
    (h1 : limiterEqAt a b T) (h2 : limiterEqAt b c T) : limiterEqAt a c T :=
  ⟨h1.1.trans h2.1, h1.2.1.trans h2.2.1, h1.2.2.trans h2.2.2⟩

theorem limiterEqAt_refl (a : GeminiRateLimiter) (T : Int) : limiterEqAt a a T :=
  ⟨rfl, rfl, rfl⟩

/-- Pruning at a time `now ≤ T` does not change what a read at `T`
reports. -/
theorem selectModelS_snd_eqAt (rl : GeminiRateLimiter) {now T : Int}
    (est : Int) (h : now ≤ T) :
    limiterEqAt (selectModelS rl now est).2 rl T := by
  simp only [selectModelS]
  split_ifs <;>
    refine ⟨?_, ?_, ?_⟩ <;>
      first
        | exact cleanup_compose _ h
        | rfl

/-- All pruning the wait loop performs happens at times at most
`t0 + i + fuel`, so a read at any `T` past that bound sees the same
usage. -/
theorem waitLoopS_snd_eqAt (t0 : Int) :
    ∀ (fuel i : Nat) (rl : GeminiRateLimiter) {T : Int},
    t0 + (i : Int) + (fuel : Int) ≤ T →
    limiterEqAt (waitLoopS t0 rl i fuel).2 rl T
  | 0, _, rl, T, _ => limiterEqAt_refl rl T
  | fuel + 1, i, rl, T, hT => by
    rw [waitLoopS_succ]
    rcases h : selectModelS rl (t0 + (i : Int) + 1) 4000 with ⟨res, st⟩
    have heq : limiterEqAt st rl T := by
      have h2 := @selectModelS_snd_eqAt rl (t0 + (i : Int) + 1) T 4000
        (by push_cast at hT ⊢; omega)
      rw [h] at h2
      exact h2
    cases res with
    | some m => simpa using heq
    | none =>
      simp only
      refine limiterEqAt_trans ?_ heq
      exact waitLoopS_snd_eqAt t0 fuel (i + 1) st (by push_cast at hT ⊢; omega)

/-- The failure kinds of one generator attempt: pure quota exhaustion
(no model even selected), a backend invocation failure, or a
validation/parsing failure after a successful invocation. -/
inductive AttemptError (ε : Type) where
  | quotaExhausted : AttemptError ε
  | invokeFailed : ε → AttemptError ε
  | validateFailed : ε → AttemptError ε
deriving DecidableEq

/-- The tail of a generator attempt once a model has been selected:
invoke the backend with it; on success record the generator's fixed
token estimate against that model and then validate/parse the
response. -/
def runSelected {ε α β : Type} (rl : GeminiRateLimiter) (name : String)
    (tRecord tokensUsed : Int) (invoke : String → Except ε α)
    (validate : α → Except ε β) :
    Except (AttemptError ε) (β × String) × GeminiRateLimiter :=
  match invoke name with
  | .error e => (.error (.invokeFailed e), rl)
  | .ok r =>
    let rl2 := recordUsage rl name tRecord tokensUsed
    match validate r with
    | .error e => (.error (.validateFailed e), rl2)
    | .ok b => (.ok (b, name), rl2)

/-- One attempt of the generator pipelines — `generate_quiz`,
`RoadmapGeneratorV2.generate_roadmap` and `RoadmapChain.generate`
share this shape: `select_model(est)`; if none, `wait_for_quota`
(bounded by `maxWait`); if still none, raise quota exhaustion;
otherwise invoke the backend with the chosen model, record usage only
after a successful invocation, then validate.  `est`, `maxWait` and
`tokensUsed` are the per-generator constants; `tRecord` stands for the
wall-clock instant at which the source's `record_request` stamps its
entries. -/
def generateAttempt {ε α β : Type} (rl : GeminiRateLimiter) (now est : Int)
    (maxWait : Nat) (tRecord tokensUsed : Int) (invoke : String → Except ε α)
    (validate : α → Except ε β) :
    Except (AttemptError ε) (β × String) × GeminiRateLimiter :=
  match selectModelS rl now est with
  | (some name, rl1) => runSelected rl1 name tRecord tokensUsed invoke validate
  | (none, rl1) =>
    match waitForQuotaS rl1 now maxWait with
    | (some name, rl2) => runSelected rl2 name tRecord tokensUsed invoke validate
    | (none, rl2) => (.error .quotaExhausted, rl2)

/-- CLAIM C7: ledger usage is recorded only on an attempt whose
backend invocation returned successfully.  An attempt that fails
before or during invocation — pure quota exhaustion or an invocation
failure — adds no entry to any ledger (every usage list of the final
registry is a sublist of the original) and leaves every ledger's
reported usage unchanged: any read at a time `T` past the attempt's
window sees exactly what it would have seen on the original state. -/
theorem generateAttempt_no_usage_on_failure {ε α β : Type}
    (rl : GeminiRateLimiter) (now est : Int) (maxWait : Nat)
    (tRecord tokensUsed : Int) (invoke : String → Except ε α)
    (validate : α → Except ε β)
    (hfail :
      (generateAttempt rl now est maxWait tRecord tokensUsed invoke validate).1
          = .error .quotaExhausted ∨
      ∃ e,
        (generateAttempt rl now est maxWait tRecord tokensUsed invoke validate).1
          = .error (.invokeFailed e)) :
    limiterSub
      (generateAttempt rl now est maxWait tRecord tokensUsed invoke validate).2
      rl ∧
    ∀ T : Int, now + (maxWait : Int) ≤ T →
      limiterEqAt
        (generateAttempt rl now est maxWait tRecord tokensUsed invoke validate).2
        rl T := by
  have hmw : (0 : Int) ≤ (maxWait : Int) := by positivity
  rcases hsel : selectModelS rl now est with ⟨sel, rl1⟩
  have hsub1 : limiterSub rl1 rl := by
    have h2 := selectModelS_snd_sub rl now est
    rw [hsel] at h2
    exact h2
  have heq1 : ∀ T : Int, now ≤ T → limiterEqAt rl1 rl T := by
    intro T hT
    have h2 := @selectModelS_snd_eqAt rl now T est hT
    rw [hsel] at h2
    exact h2
  cases sel with
  | some name =>
    rcases hinv : invoke name with e | r
    · simp only [generateAttempt, hsel, runSelected, hinv]
      exact ⟨hsub1, fun T hT => heq1 T (by omega)⟩
    · exfalso
      rcases hfail with h | ⟨e, h⟩ <;>
        · simp only [generateAttempt, hsel, runSelected, hinv] at h
          rcases hval : validate r with e2 | b <;> simp [hval] at h
  | none =>
    rcases hwait : waitForQuotaS rl1 now maxWait with ⟨w, rl2⟩
    have hsub2 : limiterSub rl2 rl1 := by
      have h2 := waitLoopS_snd_sub now maxWait 0 rl1
      rw [show waitLoopS now rl1 0 maxWait = waitForQuotaS rl1 now maxWait from rfl,
        hwait] at h2
      exact h2
    have heq2 : ∀ T : Int, now + (maxWait : Int) ≤ T → limiterEqAt rl2 rl1 T := by
      intro T hT
      have h2 := @waitLoopS_snd_eqAt now maxWait 0 rl1 T (by push_cast; omega)
      rw [show waitLoopS now rl1 0 maxWait = waitForQuotaS rl1 now maxWait from rfl,
        hwait] at h2
      exact h2
    cases w with
    | none =>
      simp only [generateAttempt, hsel, hwait]
      exact ⟨limiterSub_trans hsub2 hsub1,
        fun T hT => limiterEqAt_trans (heq2 T hT) (heq1 T (by omega))⟩
    | some name =>
      rcases hinv : invoke name with e | r
      · simp only [generateAttempt, hsel, hwait, runSelected, hinv]
        exact ⟨limiterSub_trans hsub2 hsub1,
          fun T hT => limiterEqAt_trans (heq2 T hT) (heq1 T (by omega))⟩
      · exfalso
        rcases hfail with h | ⟨e, h⟩ <;>
          · simp only [generateAttempt, hsel, hwait, runSelected, hinv] at h
            rcases hval : validate r with e2 | b <;> simp [hval] at h

/-- Witness for C7 at a concrete input: quiz-generator constants
(estimate 1500, wait bound 30), a backend that always fails; the
attempt fails during invocation and the fresh registry's ledgers gain
no entry and report the same usage at time 40. -/
theorem generateAttempt_no_usage_witness :
    limiterSub
      (generateAttempt initLimiter 0 1500 30 0 1500
        (fun _ => (.error "boom" : Except String String))
        (fun r => (.ok r : Except String String))).2
      initLimiter ∧
    limiterEqAt
      (generateAttempt initLimiter 0 1500 30 0 1500
        (fun _ => (.error "boom" : Except String String))
        (fun r => (.ok r : Except String String))).2
      initLimiter 40 := by
  have h := generateAttempt_no_usage_on_failure initLimiter 0 1500 30 0 1500
    (fun _ => (.error "boom" : Except String String))
    (fun r => (.ok r : Except String String))
    (Or.inr ⟨"boom", rfl⟩)
  exact ⟨h.1, h.2 40 (by decide)⟩

end PathAI
